import Mathlib

/-!
Verification of the RP2-series programmable-IO (PIO) support package:
instruction encoder/assembler, program-memory allocator, clock-divider
computation and state-machine configuration/lifecycle layer.

The Go source is shallowly embedded: machine integers (uint8 / uint16 /
uint32 / uint64 / int8) become `Nat` / `Int` with explicit wrap-around
(`% 2^w`, or helper functions below) exactly where the Go arithmetic can
overflow or truncate; hardware writes become explicit state passing or an
effect trace; fallible functions return `Except` / `Option` (with `none`
standing for a Go `panic`).
-/

/-- Wrap a natural number to unsigned 32-bit range, as Go `uint32` conversion. -/
def u32 (n : Nat) : Nat := n % 4294967296

/-- Go `uint8` subtraction `a - b` (for `a ≤ 255`), wrapping modulo 256. -/
def u8sub (a b : Nat) : Nat := (a + 256 - b % 256) % 256

/-- Go conversion of a `uint8` bit pattern to `int8` (two-complement reinterpretation
of the low byte). -/
def i8ofU8 (n : Nat) : Int := if n % 256 < 128 then ((n % 256 : Nat) : Int) else ((n % 256 : Nat) : Int) - 256

/-- Go `boolAsU8` from instr.go: 1 for true, 0 for false. -/
def boolAsU8 (b : Bool) : Nat := if b then 1 else 0

/-- Go `boolToBit` from config.go: 1 for true, 0 for false (as uint32). -/
def boolToBit (b : Bool) : Nat := if b then 1 else 0

/-- Instruction major-opcode constants from instr.go. -/
def _INSTR_BITS_JMP : Nat := 0x0000

def _INSTR_BITS_WAIT : Nat := 0x2000

def _INSTR_BITS_IN : Nat := 0x4000

def _INSTR_BITS_OUT : Nat := 0x6000

def _INSTR_BITS_PUSH : Nat := 0x8000

def _INSTR_BITS_PULL : Nat := 0x8080

def _INSTR_BITS_MOV : Nat := 0xa000

def _INSTR_BITS_IRQ : Nat := 0xc000

def _INSTR_BITS_SET : Nat := 0xe000

/-- Bit mask for the instruction code (top three bits of the 16-bit word). -/
def _INSTR_BITS_Msk : Nat := 0xe000

/-- Jump conditions (`JmpCond` constants from instr.go). -/
def JmpAlways : Nat := 0

def JmpXZero : Nat := 1

def JmpXNZeroDec : Nat := 2

def JmpYZero : Nat := 3

def JmpYNZeroDec : Nat := 4

def JmpXNotEqualY : Nat := 5

def JmpPinInput : Nat := 6

def JmpOSRNotEmpty : Nat := 7

/-- Out-instruction destination selectors (`OutDest` constants). -/
def OutDestPins : Nat := 0

def OutDestX : Nat := 1

def OutDestY : Nat := 2

def OutDestNull : Nat := 3

def OutDestPindirs : Nat := 4

def OutDestPC : Nat := 5

def OutDestISR : Nat := 6

def OutDestExec : Nat := 7

/-- In-instruction source selectors (`InSrc` constants). -/
def InSrcPins : Nat := 0

def InSrcX : Nat := 1

def InSrcY : Nat := 2

def InSrcNull : Nat := 3

def InSrcISR : Nat := 6

def InSrcOSR : Nat := 7

/-- Set-instruction destination selectors (`SetDest` constants). -/
def SetDestPins : Nat := 0

def SetDestX : Nat := 1

def SetDestY : Nat := 2

def SetDestPindirs : Nat := 4

/-- Mov source selectors (`MovSrc` constants). -/
def MovSrcPins : Nat := 0

def MovSrcX : Nat := 1

def MovSrcY : Nat := 2

def MovSrcNull : Nat := 3

def MovSrcStatus : Nat := 5

def MovSrcISR : Nat := 6

def MovSrcOSR : Nat := 7

/-- Mov destination selectors (`MovDest` constants). -/
def MovDestPins : Nat := 0

def MovDestX : Nat := 1

def MovDestY : Nat := 2

def MovDestPindirs : Nat := 3

def MovDestExec : Nat := 4

def MovDestPC : Nat := 5

def MovDestISR : Nat := 6

def MovDestOSR : Nat := 7

/-- Shared `SrcDest` selectors used by the free-standing encoder functions. -/
def SrcDestPins : Nat := 0

def SrcDestX : Nat := 1

def SrcDestY : Nat := 2

def SrcDestNull : Nat := 3

def SrcDestPinDirs : Nat := 4

def SrcDestStatus : Nat := 5

def SrcDestISR : Nat := 6

def SrcDestOSR : Nat := 7

/-- Five bits of the combined delay/side-set field (`delaySidesetbits` constant). -/
def delaySidesetbits : Nat := 0x1F00

/-- The `AssemblerV0` fluent assembler for PIO version 0 (RP2040): carries only the
program-wide side-set width. -/
structure AssemblerV0 where
  SidesetBits : Nat
deriving DecidableEq

/-- An in-flight `instructionV0` value: the partially assembled 16-bit word plus
the assembler it was built with. -/
structure instructionV0 where
  instr : Nat
  asm : AssemblerV0
deriving DecidableEq

/-- Go `AssemblerV0.sidesetbits`: the sub-range of the delay/side-set field used for
side-set, given the configured width (uint16 arithmetic). -/
def AssemblerV0.sidesetbits (asm : AssemblerV0) : Nat :=
  delaySidesetbits &&& ((7 <<< u8sub 13 asm.SidesetBits) % 65536)

/-- Go `AssemblerV0.delaybits`: the complementary sub-range used for the delay. -/
def AssemblerV0.delaybits (asm : AssemblerV0) : Nat :=
  delaySidesetbits &&& ((31 <<< u8sub 8 asm.SidesetBits) % 65536)

/-- Go `AssemblerV0.instr`: wrap a raw word as an instruction value. -/
def AssemblerV0.instr (asm : AssemblerV0) (i : Nat) : instructionV0 :=
  ⟨i, asm⟩

/-- Go `AssemblerV0.instrArgs`: `instr | uint16(arg1_5b)<<5 | uint16(arg2&0x1f)`. -/
def AssemblerV0.instrArgs (asm : AssemblerV0) (instr arg1_5b arg2 : Nat) : instructionV0 :=
  asm.instr (instr ||| ((arg1_5b % 256) <<< 5) ||| (arg2 &&& 0x1F))

/-- Go `AssemblerV0.instrSrcDest`: pack a 3-bit source/destination selector and a
5-bit value. -/
def AssemblerV0.instrSrcDest (asm : AssemblerV0) (instr srcDest value : Nat) : instructionV0 :=
  asm.instrArgs instr (srcDest &&& 7) value

/-- Go `AssemblerV0.encodeIRQ`: relative flag in bit 4, irq index in the low 3 bits. -/
def AssemblerV0.encodeIRQ (asm : AssemblerV0) (relative : Bool) (irq : Nat) : Nat :=
  (boolAsU8 relative <<< 4) ||| (irq &&& 7)

/-- Go `instructionV0.Encode`: the finalized 16-bit instruction word. -/
def instructionV0.Encode (i : instructionV0) : Nat := i.instr

/-- Go `instructionV0.majorbits`: the top-3-bit kind of the word. -/
def instructionV0.majorbits (i : instructionV0) : Nat := i.instr &&& _INSTR_BITS_Msk

/-- Go `instructionV0.Side`: clear the side-set sub-range, then OR in
`value << (13 - SidesetBits)` (uint16 arithmetic). -/
def instructionV0.Side (i : instructionV0) (value : Nat) : instructionV0 :=
  ⟨(i.instr &&& (65535 ^^^ i.asm.sidesetbits)) |||
    (((value % 256) <<< u8sub 13 i.asm.SidesetBits) % 65536), i.asm⟩

/-- Go `instructionV0.Delay`: clear the delay sub-range, then OR in
`(0b11111 & cycles) << 8`. -/
def instructionV0.Delay (i : instructionV0) (cycles : Nat) : instructionV0 :=
  ⟨(i.instr &&& (65535 ^^^ i.asm.delaybits)) ||| ((31 &&& cycles) <<< 8), i.asm⟩

/-- Go `AssemblerV0.Jmp`: jump to `addr` under condition `cond`. -/
def AssemblerV0.Jmp (asm : AssemblerV0) (addr cond : Nat) : instructionV0 :=
  asm.instrArgs _INSTR_BITS_JMP (cond &&& 7) addr

/-- Go `AssemblerV0.WaitPin`: stall until the mapped input pin `pin` has the
given polarity. -/
def AssemblerV0.WaitPin (asm : AssemblerV0) (polarity : Bool) (pin : Nat) : instructionV0 :=
  asm.instrArgs _INSTR_BITS_WAIT (1 ||| (boolAsU8 polarity <<< 2)) pin

/-- Go `AssemblerV0.WaitIRQ`: stall until the selected PIO IRQ flag. -/
def AssemblerV0.WaitIRQ (asm : AssemblerV0) (polarity relative : Bool) (irqindex : Nat) : instructionV0 :=
  asm.instrArgs _INSTR_BITS_WAIT (2 ||| (boolAsU8 polarity <<< 2)) (asm.encodeIRQ relative irqindex)

/-- Go `AssemblerV0.WaitGPIO`: stall until the absolute GPIO input `pin`. -/
def AssemblerV0.WaitGPIO (asm : AssemblerV0) (polarity : Bool) (pin : Nat) : instructionV0 :=
  asm.instrArgs _INSTR_BITS_WAIT (0 ||| (boolAsU8 polarity <<< 2)) pin

/-- Go `AssemblerV0.In`: shift `value` bits from `src` into the ISR. -/
def AssemblerV0.In (asm : AssemblerV0) (src value : Nat) : instructionV0 :=
  asm.instrSrcDest _INSTR_BITS_IN src value

/-- Go `AssemblerV0.Out`: shift `value` bits out of the OSR to `dest`. -/
def AssemblerV0.Out (asm : AssemblerV0) (dest value : Nat) : instructionV0 :=
  asm.instrSrcDest _INSTR_BITS_OUT dest value

/-- Go `AssemblerV0.Push`: push the ISR to the RX FIFO. -/
def AssemblerV0.Push (asm : AssemblerV0) (ifFull block : Bool) : instructionV0 :=
  asm.instrArgs _INSTR_BITS_PUSH ((boolAsU8 ifFull <<< 1) ||| boolAsU8 block) 0

/-- Go `AssemblerV0.Pull`: pull a word from the TX FIFO into the OSR. -/
def AssemblerV0.Pull (asm : AssemblerV0) (ifEmpty block : Bool) : instructionV0 :=
  asm.instrArgs _INSTR_BITS_PULL ((boolAsU8 ifEmpty <<< 1) ||| boolAsU8 block) 0

/-- Go `AssemblerV0.Mov`: copy from `src` to `dest`. -/
def AssemblerV0.Mov (asm : AssemblerV0) (dest src : Nat) : instructionV0 :=
  asm.instrSrcDest _INSTR_BITS_MOV dest (src &&& 7)

/-- Go `AssemblerV0.MovInvert`: Mov inverting the bits. -/
def AssemblerV0.MovInvert (asm : AssemblerV0) (dest src : Nat) : instructionV0 :=
  asm.instrSrcDest _INSTR_BITS_MOV dest ((1 <<< 3) ||| (src &&& 7))

/-- Go `AssemblerV0.MovReverse`: Mov reversing bit order. -/
def AssemblerV0.MovReverse (asm : AssemblerV0) (dest src : Nat) : instructionV0 :=
  asm.instrSrcDest _INSTR_BITS_MOV dest ((2 <<< 3) ||| (src &&& 7))

/-- Go `AssemblerV0.IRQSet`: set the IRQ flag selected by `irqIndex`. -/
def AssemblerV0.IRQSet (asm : AssemblerV0) (relative : Bool) (irqIndex : Nat) : instructionV0 :=
  asm.instrArgs _INSTR_BITS_IRQ 0 (asm.encodeIRQ relative irqIndex)

/-- Go `AssemblerV0.IRQClear`: clear the IRQ flag selected by `irqIndex`. -/
def AssemblerV0.IRQClear (asm : AssemblerV0) (relative : Bool) (irqIndex : Nat) : instructionV0 :=
  asm.instrArgs _INSTR_BITS_IRQ 2 (asm.encodeIRQ relative irqIndex)

/-- Go `AssemblerV0.Set`: write an immediate 0..31 value to `dest`. -/
def AssemblerV0.Set (asm : AssemblerV0) (dest value : Nat) : instructionV0 :=
  asm.instrSrcDest _INSTR_BITS_SET dest value

/-- Go `AssemblerV0.Nop`: pseudo-instruction, a self-move of Y. -/
def AssemblerV0.Nop (asm : AssemblerV0) : instructionV0 :=
  asm.Mov MovDestY MovSrcY

/-- C1: the hardware-documented encoding vectors hold exactly: with side-set width 1,
out-to-pins with bit count 1 and side-set value 0 encodes to 0x6001; a jump with
condition x-nonzero-decrement, target 0 and side-set value 1 encodes to 0x1040;
a wait-on-pin with polarity true and pin index 0 and no side-set encodes to 0x20a0. -/
theorem C1_encoding_vectors :
    (((AssemblerV0.mk 1).Out OutDestPins 1).Side 0).Encode = 0x6001 ∧
    (((AssemblerV0.mk 1).Jmp 0 JmpXNZeroDec).Side 1).Encode = 0x1040 ∧
    ((AssemblerV0.mk 0).WaitPin true 0).Encode = 0x20a0 := by
  decide

/-- Free-standing `majorInstrBits`: the top-3-bit kind of a word. -/
def majorInstrBits (instr : Nat) : Nat := instr &&& _INSTR_BITS_Msk

/-- Free-standing `encodeInstrAndArgs`: `instr | uint16(arg1)<<5 | uint16(arg2&0x1f)`. -/
def encodeInstrAndArgs (instr arg1 arg2 : Nat) : Nat :=
  instr ||| ((arg1 % 256) <<< 5) ||| (arg2 &&& 0x1F)

/-- Free-standing `encodeInstrAndSrcDest`. -/
def encodeInstrAndSrcDest (instr dest value : Nat) : Nat :=
  encodeInstrAndArgs instr (dest &&& 7) value

/-- Free-standing `EncodeDelay`. -/
def EncodeDelay (cycles : Nat) : Nat := (31 &&& cycles) <<< 8

/-- Free-standing `EncodeSideSet` (uint16 arithmetic, uint8 shift count). -/
def EncodeSideSet (bitCount value : Nat) : Nat :=
  ((value % 256) <<< u8sub 13 bitCount) % 65536

/-- Free-standing `EncodeJmp`. -/
def EncodeJmp (addr condition : Nat) : Nat :=
  encodeInstrAndArgs _INSTR_BITS_JMP (condition &&& 7) addr

/-- Free-standing `encodeIRQ` as written in the source: it places the relative flag
in bit 4 and drops the irq index bits entirely. -/
def encodeIRQ (relative : Bool) (irq : Nat) : Nat := boolAsU8 relative <<< 4

/-- Free-standing `EncodeWaitGPIO`. -/
def EncodeWaitGPIO (polarity : Bool) (pin : Nat) : Nat :=
  encodeInstrAndArgs _INSTR_BITS_WAIT (0 ||| (boolAsU8 polarity <<< 2)) pin

/-- Free-standing `EncodeWaitPin`. -/
def EncodeWaitPin (polarity : Bool) (pin : Nat) : Nat :=
  encodeInstrAndArgs _INSTR_BITS_WAIT (1 ||| (boolAsU8 polarity <<< 2)) pin

/-- Free-standing `EncodeWaitIRQ`. -/
def EncodeWaitIRQ (polarity relative : Bool) (irq : Nat) : Nat :=
  encodeInstrAndArgs _INSTR_BITS_WAIT (2 ||| (boolAsU8 polarity <<< 2)) (encodeIRQ relative irq)

/-- Free-standing `EncodeIn`. -/
def EncodeIn (src value : Nat) : Nat := encodeInstrAndSrcDest _INSTR_BITS_IN src value

/-- Free-standing `EncodeOut`. -/
def EncodeOut (dest value : Nat) : Nat := encodeInstrAndSrcDest _INSTR_BITS_OUT dest value

/-- Free-standing `EncodePush`. -/
def EncodePush (ifFull block : Bool) : Nat :=
  encodeInstrAndArgs _INSTR_BITS_PUSH ((boolAsU8 ifFull <<< 1) ||| boolAsU8 block) 0

/-- Free-standing `EncodePull`. -/
def EncodePull (ifEmpty block : Bool) : Nat :=
  encodeInstrAndArgs _INSTR_BITS_PULL ((boolAsU8 ifEmpty <<< 1) ||| boolAsU8 block) 0

/-- Free-standing `EncodeMov`. -/
def EncodeMov (dest src : Nat) : Nat := encodeInstrAndSrcDest _INSTR_BITS_MOV dest (src &&& 7)

/-- Free-standing `EncodeMovNot`. -/
def EncodeMovNot (dest src : Nat) : Nat :=
  encodeInstrAndSrcDest _INSTR_BITS_MOV dest ((1 <<< 3) ||| (src &&& 7))

/-- Free-standing `EncodeMovReverse`. -/
def EncodeMovReverse (dest src : Nat) : Nat :=
  encodeInstrAndSrcDest _INSTR_BITS_MOV dest ((2 <<< 3) ||| (src &&& 7))

/-- Free-standing `EncodeIRQSet`. -/
def EncodeIRQSet (relative : Bool) (irq : Nat) : Nat :=
  encodeInstrAndArgs _INSTR_BITS_IRQ 0 (encodeIRQ relative irq)

/-- Free-standing `EncodeIRQClear`. -/
def EncodeIRQClear (relative : Bool) (irq : Nat) : Nat :=
  encodeInstrAndArgs _INSTR_BITS_IRQ 2 (encodeIRQ relative irq)

/-- Free-standing `EncodeSet`. -/
def EncodeSet (dest value : Nat) : Nat := encodeInstrAndSrcDest _INSTR_BITS_SET dest value

/-- Free-standing `EncodeNOP`. -/
def EncodeNOP : Nat := EncodeMov SrcDestY SrcDestY

/-- The `AssemblerV1` fluent assembler for PIO version 1 (RP2350); most logic is
shared with `AssemblerV0`. -/
structure AssemblerV1 where
  SidesetBits : Nat
deriving DecidableEq

/-- Go `AssemblerV1.v0`: view this assembler as the version-0 assembler. -/
def AssemblerV1.v0 (asm : AssemblerV1) : AssemblerV0 :=
  ⟨asm.SidesetBits⟩

/-- Go `AssemblerV1.Jmp`: unchanged from version 0. -/
def AssemblerV1.Jmp (asm : AssemblerV1) (addr cond : Nat) : instructionV0 :=
  asm.v0.Jmp addr cond

/-- Go `AssemblerV1.WaitIRQ`: unchanged from version 0. -/
def AssemblerV1.WaitIRQ (asm : AssemblerV1) (polarity relative : Bool) (irqindex : Nat) : instructionV0 :=
  asm.v0.WaitIRQ polarity relative irqindex

/-- Go `AssemblerV1.Set`: unchanged from version 0. -/
def AssemblerV1.Set (asm : AssemblerV1) (dest value : Nat) : instructionV0 :=
  asm.v0.Set dest value

/-- Go `AssemblerV1.irq`: the extended version-1 IRQ encoding with a 2-bit index mode. -/
def AssemblerV1.irq (asm : AssemblerV1) (clear wait : Bool) (irqIndex idxMode : Nat) : instructionV0 :=
  asm.v0.instr (_INSTR_BITS_IRQ ||| (boolAsU8 clear <<< 6) ||| (boolAsU8 wait <<< 5) |||
    ((idxMode &&& 3) <<< 3) ||| (irqIndex &&& 7))

/-- Go `AssemblerV1.IRQSet`. -/
def AssemblerV1.IRQSet (asm : AssemblerV1) (irqIndex idxMode : Nat) : instructionV0 :=
  asm.irq false false irqIndex idxMode

/-- Go `AssemblerV1.IRQClear`. -/
def AssemblerV1.IRQClear (asm : AssemblerV1) (irqIndex idxMode : Nat) : instructionV0 :=
  asm.irq true false irqIndex idxMode

/-- C9: the free-standing per-kind encoders are NOT bit-compatible with the assembler
builder methods on the IRQ-related kinds: the free `encodeIRQ` drops the irq index,
so for irq index 1 the free `EncodeIRQSet`, `EncodeIRQClear` and `EncodeWaitIRQ`
disagree with `AssemblerV0.IRQSet`, `AssemblerV0.IRQClear` and `AssemblerV1.WaitIRQ`
(which keep the index in the low three bits). -/
theorem C9_free_encoder_drops_irq_index :
    EncodeIRQSet false 1 = 0xC000 ∧ ((AssemblerV0.mk 0).IRQSet false 1).Encode = 0xC001 ∧
    EncodeIRQClear false 1 = 0xC040 ∧ ((AssemblerV0.mk 0).IRQClear false 1).Encode = 0xC041 ∧
    EncodeWaitIRQ false false 1 = 0x2040 ∧ ((AssemblerV1.mk 0).WaitIRQ false false 1).Encode = 0x2041 := by
  decide

/-- Errors returned by the program-memory allocator (pio.go). -/
inductive PIOErr where
  | outOfProgramSpace
  | noSpaceAtOffset
deriving DecidableEq

/-- The software-visible allocator state of one PIO block: the 32-bit occupancy
bitmap `usedSpaceMask` and the instruction memory, modeled as a map from the
word index written by `writeInstructionMemory` to the stored 16-bit word. -/
structure PIOState where
  usedSpaceMask : Nat
  instrMem : Nat → Nat

/-- Go `PIO.writeInstructionMemory`: store a 16-bit word at the given index. -/
def writeInstructionMemory (s : PIOState) (offset value : Nat) : PIOState :=
  { s with instrMem := fun a => if a = offset then value else s.instrMem a }

/-- The mask `uint32((1 << len) - 1)` as computed in `CanAddProgramAtOffset`,
where the shift and subtraction happen in Go `int` (64-bit two-complement)
arithmetic before the uint32 conversion. -/
def canAddMask (len : Nat) : Nat :=
  (((1 <<< len) % 18446744073709551616 + 18446744073709551615) % 18446744073709551616) % 4294967296

/-- The mask `uint32(1)<<len - 1` as computed in uint32 arithmetic
(`AddProgramAtOffset` with `len = uint8(len(instructions))`, and
`findOffsetForProgram` with `len = uint32(len(instructions))`). -/
def u32Mask (len : Nat) : Nat :=
  ((1 <<< len) % 4294967296 + 4294967295) % 4294967296

/-- Go `PIO.CanAddProgramAtOffset`: non-relocatable programs must be added at their
origin (compared against `int8(offset)`), and the bitmap range must be free. -/
def CanAddProgramAtOffset (s : PIOState) (instructions : List Nat) (origin : Int) (offset : Nat) : Bool :=
  if 0 ≤ origin ∧ origin ≠ i8ofU8 offset then false
  else decide (s.usedSpaceMask &&& ((canAddMask instructions.length <<< offset) % 4294967296) = 0)

/-- Relocation of one instruction as performed by `AddProgramAtOffset`: words of the
jump kind get `uint16(offset)` added (uint16 arithmetic), others are stored verbatim. -/
def patchInstr (offset instr : Nat) : Nat :=
  if instr &&& _INSTR_BITS_Msk = _INSTR_BITS_JMP then (instr + offset % 256) % 65536 else instr

/-- The write loop of `AddProgramAtOffset`: for each instruction in order, write the
(possibly relocated) word at uint8 index `offset + i`. -/
def writeProgramLoop (s : PIOState) (offset i : Nat) : List Nat → PIOState
  | [] => s
  | instr :: rest =>
      writeProgramLoop (writeInstructionMemory s ((offset + i) % 256) (patchInstr offset instr)) offset (i + 1) rest

/-- Go `PIO.AddProgramAtOffset`, as a state-passing function: the pair of the Go
return value and the receiver state after the call (unchanged when the function
returns early with an error). -/
def AddProgramAtOffset (s : PIOState) (instructions : List Nat) (origin : Int) (offset : Nat) :
    Except PIOErr Unit × PIOState :=
  if ¬ CanAddProgramAtOffset s instructions origin offset then (.error .noSpaceAtOffset, s)
  else
    let programLen := instructions.length % 256
    let s1 := writeProgramLoop s (offset % 256) 0 (instructions.take programLen)
    (.ok (), { s1 with
      usedSpaceMask := s1.usedSpaceMask ||| ((u32Mask programLen <<< (offset % 256)) % 4294967296) })

/-- The scan loop of `findOffsetForProgram` for relocatable programs: work down from
the top candidate offset, returning the first whose masked bitmap range is clear. -/
def findOffsetLoop (used mask : Nat) : Nat → Int
  | 0 => if used &&& (mask % 4294967296) = 0 then 0 else -1
  | i + 1 =>
      if used &&& ((mask <<< (i + 1)) % 4294967296) = 0 then ((i + 1 : Nat) : Int)
      else findOffsetLoop used mask i

/-- Go `PIO.findOffsetForProgram`: fixed-origin programs are placed at their origin if
they fit and the range is free; relocatable programs scan from `int8(32 - len)` down
to 0 (all arithmetic with the Go wrap-around semantics). -/
def findOffsetForProgram (used : Nat) (instructions : List Nat) (origin : Int) : Int :=
  let programLen := u32 instructions.length
  let programMask := u32Mask programLen
  if 0 ≤ origin then
    if u32 origin.toNat > (32 + 4294967296 - programLen) % 4294967296 then -1
    else if ¬ (used &&& ((programMask <<< origin.toNat) % 4294967296) = 0) then -1
    else origin
  else
    let start := i8ofU8 ((32 + 4294967296 - programLen) % 4294967296)
    if start < 0 then -1
    else findOffsetLoop used programMask start.toNat

/-- Go `PIO.AddProgram`, as a state-passing function: find an offset, fail with
`ErrOutOfProgramSpace` when none exists, otherwise delegate to `AddProgramAtOffset`
(whose error, if any, is ignored by the Go code, which then mutated nothing). -/
def AddProgram (s : PIOState) (instructions : List Nat) (origin : Int) :
    Except PIOErr Nat × PIOState :=
  let maybeOffset := findOffsetForProgram s.usedSpaceMask instructions origin
  if maybeOffset < 0 then (.error .outOfProgramSpace, s)
  else
    let offset := maybeOffset.toNat % 256
    ((.ok offset), (AddProgramAtOffset s instructions origin offset).2)

/-- The write loop of `ClearProgramSection`: write the trap word (an unconditional
jump to the section start) at `count` successive indices starting at `index`. -/
def clearSectionLoop (mem : Nat → Nat) (index trap : Nat) : Nat → (Nat → Nat)
  | 0 => mem
  | n + 1 => clearSectionLoop (fun a => if a = index then trap else mem a) (index + 1) trap n

/-- Go `PIO.ClearProgramSection`: panics (`none`) when `offset+len > 32` in uint8
arithmetic; otherwise overwrites each word of the section with
`AssemblerV0{}.Jmp(offset, JmpAlways)` and clears the corresponding bitmap bits. -/
def ClearProgramSection (s : PIOState) (offset len : Nat) : Option PIOState :=
  if (offset + len) % 256 > 32 then none
  else
    let endIndex := (offset % 256 + len) % 256
    let trap := ((AssemblerV0.mk 0).Jmp (offset % 256) JmpAlways).Encode
    some { instrMem := clearSectionLoop s.instrMem (offset % 256) trap (endIndex - offset % 256),
           usedSpaceMask := s.usedSpaceMask &&&
             (4294967295 ^^^ ((u32Mask (len % 256) <<< (offset % 256)) % 4294967296)) }

/-- A fresh PIO block: empty occupancy bitmap, instruction memory all zero. -/
def freshPIO : PIOState := ⟨0, fun _ => 0⟩

/-- C10: allocation is atomic on failure: when `AddProgram` returns
`ErrOutOfProgramSpace`, or `AddProgramAtOffset` returns `ErrNoSpaceAtOffset`, the
occupancy bitmap and the instruction memory are exactly as before the call. -/
theorem C10_allocation_atomic_on_failure (s : PIOState) (instructions : List Nat)
    (origin : Int) (offset : Nat) :
    ((AddProgram s instructions origin).1 = .error .outOfProgramSpace →
      (AddProgram s instructions origin).2 = s) ∧
    ((AddProgramAtOffset s instructions origin offset).1 = .error .noSpaceAtOffset →
      (AddProgramAtOffset s instructions origin offset).2 = s) := by
  constructor
  · intro h
    unfold AddProgram at h ⊢
    by_cases hlt : findOffsetForProgram s.usedSpaceMask instructions origin < 0
    · simp [hlt]
    · simp [hlt] at h
  · intro h
    unfold AddProgramAtOffset at h ⊢
    by_cases hc : CanAddProgramAtOffset s instructions origin offset
    · simp [hc] at h
    · simp [hc]

/-- Witness for C10: on a completely occupied bitmap, both entry points fail and
leave the state untouched. -/
theorem C10_witness :
    (AddProgram ⟨4294967295, fun _ => 0⟩ [0xa042] (-1)).2 = ⟨4294967295, fun _ => 0⟩ ∧
    (AddProgramAtOffset ⟨4294967295, fun _ => 0⟩ [0xa042] (-1) 0).2 = ⟨4294967295, fun _ => 0⟩ :=
  ⟨(C10_allocation_atomic_on_failure ⟨4294967295, fun _ => 0⟩ [0xa042] (-1) 0).1 (by rfl),
   (C10_allocation_atomic_on_failure ⟨4294967295, fun _ => 0⟩ [0xa042] (-1) 0).2 (by rfl)⟩

/-- C4: the capacity check of `AddProgram` is broken for fixed-origin programs longer
than the 32-word memory: on a fresh PIO, a 33-instruction program with origin 0 is
accepted (offset 0, no `ErrOutOfProgramSpace`) because `32 - programLen` underflows
in uint32 arithmetic, and the call marks the whole bitmap; the claim (and the
documentation of the function itself) require an out-of-space error here. -/
theorem C4_oversized_fixed_origin_program_accepted :
    (AddProgram freshPIO (List.replicate 33 0xa042) 0).1 = .ok 0 ∧
    (AddProgram freshPIO (List.replicate 33 0xa042) 0).2.usedSpaceMask = 4294967295 := by
  constructor
  · rfl
  · rfl

/-- The write loop never touches the occupancy bitmap. -/
theorem writeProgramLoop_usedSpaceMask (l : List Nat) (s : PIOState) (offset i : Nat) :
    (writeProgramLoop s offset i l).usedSpaceMask = s.usedSpaceMask := by
  induction l generalizing s i with
  | nil => rfl
  | cons instr rest ih => simpa [writeProgramLoop] using ih _ _

/-- The write loop leaves addresses below its starting index untouched (when the
written region does not wrap modulo 256). -/
theorem writeProgramLoop_mem_lower (l : List Nat) (s : PIOState) (offset i a : Nat)
    (ha : a < offset + i) (hbound : offset + i + l.length ≤ 256) :
    (writeProgramLoop s offset i l).instrMem a = s.instrMem a := by
  induction l generalizing s i with
  | nil => rfl
  | cons instr rest ih =>
      simp only [writeProgramLoop]
      rw [ih _ (i + 1) (by omega) (by simp at hbound ⊢; omega)]
      simp only [writeInstructionMemory]
      have hmod : (offset + i) % 256 = offset + i := by
        apply Nat.mod_eq_of_lt; simp at hbound; omega
      simp only [hmod]
      rw [if_neg (by omega)]

/-- Each position written by the write loop holds the relocated word of the
corresponding instruction (when the written region does not wrap modulo 256). -/
theorem writeProgramLoop_mem_get (l : List Nat) (s : PIOState) (offset i j : Nat)
    (hj : j < l.length) (hbound : offset + i + l.length ≤ 256) :
    (writeProgramLoop s offset i l).instrMem (offset + i + j) =
      patchInstr offset (l.get ⟨j, hj⟩) := by
  induction l generalizing s i j with
  | nil => simp at hj
  | cons instr rest ih =>
      match j with
      | 0 =>
          simp only [writeProgramLoop]
          rw [writeProgramLoop_mem_lower rest _ offset (i + 1) (offset + i + 0) (by omega)
            (by simp at hbound ⊢; omega)]
          simp only [writeInstructionMemory]
          have hmod : (offset + i) % 256 = offset + i := by
            apply Nat.mod_eq_of_lt; simp at hbound; omega
          simp [hmod]
      | k + 1 =>
          simp only [writeProgramLoop]
          have hk : k < rest.length := by simp at hj; omega
          have := ih (writeInstructionMemory s ((offset + i) % 256) (patchInstr offset instr))
            (i + 1) k hk (by simp at hbound ⊢; omega)
          have harith : offset + (i + 1) + k = offset + i + (k + 1) := by omega
          rw [harith] at this
          rw [this]
          rfl

/-- A 16-bit word whose top three bits are clear is below 2^13. -/
theorem lt_8192_of_jump_kind (x : Nat) (h : x &&& 57344 = 0) (hx : x < 65536) : x < 8192 := by
  have hb : ∀ i, i ≥ 13 → x.testBit i = false := by
    intro i hi
    by_cases h16 : i ≥ 16
    · have h2 : (65536 : Nat) ≤ 2 ^ i := by
        calc (65536 : Nat) = 2 ^ 16 := by norm_num
          _ ≤ 2 ^ i := Nat.pow_le_pow_right (by omega) h16
      exact Nat.testBit_lt_two_pow (lt_of_lt_of_le hx h2)
    · have hmem : i = 13 ∨ i = 14 ∨ i = 15 := by omega
      have ht := congrArg (fun n => Nat.testBit n i) h
      simp only [Nat.testBit_land, Nat.zero_testBit] at ht
      rcases hmem with h13 | h14 | h15
      · subst h13
        rw [show Nat.testBit 57344 13 = true from by decide, Bool.and_true] at ht
        exact ht
      · subst h14
        rw [show Nat.testBit 57344 14 = true from by decide, Bool.and_true] at ht
        exact ht
      · subst h15
        rw [show Nat.testBit 57344 15 = true from by decide, Bool.and_true] at ht
        exact ht
  exact Nat.lt_pow_two_of_testBit x hb

/-- What C2 asserts of one successful `AddProgramAtOffset` call: each instruction is
stored at word `offset + i`, verbatim except for jump-kind words which get the load
offset added; consequently a jump whose authored 5-bit address operand is 0 decodes
in memory to operand `offset`. -/
def C2Prop (s : PIOState) (instructions : List Nat) (origin : Int) (offset : Nat) : Prop :=
  ∀ i (hi : i < instructions.length),
    ((AddProgramAtOffset s instructions origin offset).2.instrMem (offset + i) =
      (if instructions.get ⟨i, hi⟩ &&& _INSTR_BITS_Msk = _INSTR_BITS_JMP
        then instructions.get ⟨i, hi⟩ + offset
        else instructions.get ⟨i, hi⟩)) ∧
    (instructions.get ⟨i, hi⟩ &&& _INSTR_BITS_Msk = _INSTR_BITS_JMP →
      instructions.get ⟨i, hi⟩ &&& 31 = 0 →
      (AddProgramAtOffset s instructions origin offset).2.instrMem (offset + i) &&& 31 = offset)

/-- C2: for every successful `AddProgramAtOffset` call that stays inside the 32-word
program memory, every instruction `i` is written to memory word `offset + i`
unchanged, except jump-kind instructions which are written with the load offset
added; in particular a jump whose program-relative target is 0 has its 5-bit
address operand equal to `offset` in memory, not 0. -/
theorem C2_add_program_at_offset_relocates_jumps (s : PIOState) (instructions : List Nat)
    (origin : Int) (offset : Nat)
    (h16 : ∀ x ∈ instructions, x < 65536)
    (hfit : offset + instructions.length ≤ 32)
    (hok : (AddProgramAtOffset s instructions origin offset).1 = .ok ()) :
    C2Prop s instructions origin offset := by
  intro i hi
  have hcan : CanAddProgramAtOffset s instructions origin offset = true := by
    by_contra hc
    unfold AddProgramAtOffset at hok
    simp [hc] at hok
  have hlen : instructions.length % 256 = instructions.length :=
    Nat.mod_eq_of_lt (by omega)
  have hoff : offset % 256 = offset := Nat.mod_eq_of_lt (by omega)
  have hstate : (AddProgramAtOffset s instructions origin offset).2.instrMem =
      (writeProgramLoop s (offset % 256) 0 (instructions.take (instructions.length % 256))).instrMem := by
    unfold AddProgramAtOffset
    simp [hcan]
  have htake : instructions.take (instructions.length % 256) = instructions := by
    rw [hlen]; exact List.take_length ..
  have hget := writeProgramLoop_mem_get instructions s offset 0 i hi (by omega)
  have hmem : (AddProgramAtOffset s instructions origin offset).2.instrMem (offset + i) =
      patchInstr offset (instructions.get ⟨i, hi⟩) := by
    rw [hstate, hoff, htake]
    have harith : offset + i = offset + 0 + i := by omega
    rw [harith, hget]
  have hjlt : instructions.get ⟨i, hi⟩ &&& _INSTR_BITS_Msk = _INSTR_BITS_JMP →
      instructions.get ⟨i, hi⟩ + offset < 65536 := by
    intro hj
    have hx : instructions.get ⟨i, hi⟩ < 65536 := h16 _ (List.get_mem ..)
    have := lt_8192_of_jump_kind (instructions.get ⟨i, hi⟩) (by simpa [_INSTR_BITS_Msk, _INSTR_BITS_JMP] using hj) hx
    omega
  constructor
  · rw [hmem]
    unfold patchInstr
    by_cases hj : instructions.get ⟨i, hi⟩ &&& _INSTR_BITS_Msk = _INSTR_BITS_JMP
    · rw [if_pos hj, if_pos hj, hoff, Nat.mod_eq_of_lt (hjlt hj)]
    · rw [if_neg hj, if_neg hj]
  · intro hj hlow
    rw [hmem]
    unfold patchInstr
    rw [if_pos hj, hoff, Nat.mod_eq_of_lt (hjlt hj)]
    have h31 : ∀ n : Nat, n &&& 31 = n % 32 := by
      intro n
      have h5 := Nat.and_pow_two_sub_one_eq_mod n 5
      norm_num at h5
      exact h5
    rw [h31] at hlow ⊢
    omega

/-- Witness for C2: loading the relocatable three-word program
`[jmp 0, nop, out pins 1]` at offset 5 on a fresh PIO satisfies all hypotheses and
the conclusion (the jump is stored as `0x0005`). -/
theorem C2_witness :
    (∀ x ∈ [0x0000, 0xa042, 0x6001], x < 65536) ∧
    5 + ([0x0000, 0xa042, 0x6001] : List Nat).length ≤ 32 ∧
    (AddProgramAtOffset freshPIO [0x0000, 0xa042, 0x6001] (-1) 5).1 = .ok () ∧
    C2Prop freshPIO [0x0000, 0xa042, 0x6001] (-1) 5 :=
  ⟨by decide, by decide, by rfl,
    C2_add_program_at_offset_relocates_jumps freshPIO [0x0000, 0xa042, 0x6001] (-1) 5
      (by decide) (by decide) (by rfl)⟩

/-- A candidate word range is free: every bitmap bit in `[offset, offset+len)` is clear. -/
def maskRangeFree (used offset len : Nat) : Prop :=
  ∀ w, offset ≤ w → w < offset + len → used.testBit w = false

/-- The free-range test exactly as the allocator performs it: the shifted program
mask has no bit in common with the occupancy bitmap. -/
def freeAt (used mask k : Nat) : Prop :=
  used &&& ((mask <<< k) % 4294967296) = 0

/-- For program lengths up to 32 the wrapped uint32 mask is the exact `2^len - 1`. -/
theorem u32Mask_le32 (len : Nat) (h : len ≤ 32) : u32Mask len = 2 ^ len - 1 := by
  unfold u32Mask
  rw [Nat.shiftLeft_eq, one_mul]
  have hb : 2 ^ len ≤ 2 ^ 32 := Nat.pow_le_pow_right (by omega) h
  have hp : 1 ≤ 2 ^ len := Nat.one_le_two_pow
  have h32 : (2 : Nat) ^ 32 = 4294967296 := by norm_num
  omega

/-- The mask test of the allocator agrees with word-by-word freeness of the bitmap range,
for ranges lying inside the 32-word memory. -/
theorem freeAt_iff_maskRangeFree (used offset len : Nat) (hol : offset + len ≤ 32) :
    freeAt used (u32Mask len) offset ↔ maskRangeFree used offset len := by
  have hmask : u32Mask len = 2 ^ len - 1 := u32Mask_le32 len (by omega)
  have h32 : (4294967296 : Nat) = 2 ^ 32 := by norm_num
  unfold freeAt maskRangeFree
  rw [hmask, h32]
  constructor
  · intro h w hw1 hw2
    have ht := congrArg (fun n => Nat.testBit n w) h
    simp only [Nat.testBit_land, Nat.zero_testBit, Nat.testBit_mod_two_pow,
      Nat.testBit_shiftLeft, Nat.testBit_two_pow_sub_one] at ht
    have hd1 : w < 32 := by omega
    have hd2 : offset ≤ w := hw1
    have hd3 : w - offset < len := by omega
    simpa [hd1, hd2, hd3] using ht
  · intro h
    apply Nat.eq_of_testBit_eq
    intro i
    simp only [Nat.testBit_land, Nat.zero_testBit, Nat.testBit_mod_two_pow,
      Nat.testBit_shiftLeft, Nat.testBit_two_pow_sub_one]
    by_cases hr : offset ≤ i ∧ i < offset + len
    · have := h i hr.1 hr.2
      simp [this]
    · by_cases hlo : offset ≤ i
      · have : ¬ (i - offset < len) := by omega
        simp [this]
      · simp [hlo]

/-- When the countdown scan returns a candidate, that candidate passes the free test
and every higher candidate in the scanned range fails it. -/
theorem findOffsetLoop_eq_nat (used mask : Nat) :
    ∀ i r : Nat, findOffsetLoop used mask i = (r : Int) →
      r ≤ i ∧ freeAt used mask r ∧ ∀ k, r < k → k ≤ i → ¬ freeAt used mask k := by
  intro i
  induction i with
  | zero =>
      intro r h
      unfold findOffsetLoop at h
      by_cases hc : used &&& (mask % 4294967296) = 0
      · rw [if_pos hc] at h
        have hr : r = 0 := by exact_mod_cast h.symm
        subst hr
        refine ⟨le_refl 0, ?_, by omega⟩
        unfold freeAt
        simpa [Nat.shiftLeft_zero] using hc
      · rw [if_neg hc] at h
        exact absurd h (by omega)
  | succ n ih =>
      intro r h
      unfold findOffsetLoop at h
      by_cases hc : used &&& ((mask <<< (n + 1)) % 4294967296) = 0
      · rw [if_pos hc] at h
        have hr : r = n + 1 := by exact_mod_cast h.symm
        subst hr
        exact ⟨le_refl _, hc, by omega⟩
      · rw [if_neg hc] at h
        obtain ⟨h1, h2, h3⟩ := ih r h
        refine ⟨by omega, h2, ?_⟩
        intro k hk1 hk2
        by_cases hke : k = n + 1
        · subst hke; exact hc
        · exact h3 k hk1 (by omega)

/-- The countdown scan returns −1 exactly when every candidate in the scanned range
fails the free test. -/
theorem findOffsetLoop_eq_neg_iff (used mask : Nat) :
    ∀ i : Nat, findOffsetLoop used mask i = -1 ↔ ∀ k, k ≤ i → ¬ freeAt used mask k := by
  intro i
  induction i with
  | zero =>
      unfold findOffsetLoop
      by_cases hc : used &&& (mask % 4294967296) = 0
      · rw [if_pos hc]
        constructor
        · intro h; exact absurd h (by omega)
        · intro h
          exact absurd (by unfold freeAt; simpa [Nat.shiftLeft_zero] using hc) (h 0 (le_refl 0))
      · rw [if_neg hc]
        constructor
        · intro _ k hk
          interval_cases k
          unfold freeAt
          simpa [Nat.shiftLeft_zero] using hc
        · intro _; rfl
  | succ n ih =>
      unfold findOffsetLoop
      by_cases hc : used &&& ((mask <<< (n + 1)) % 4294967296) = 0
      · rw [if_pos hc]
        constructor
        · intro h; exact absurd h (by omega)
        · intro h
          exact absurd hc (h (n + 1) (le_refl _))
      · rw [if_neg hc]
        constructor
        · intro h k hk
          by_cases hke : k = n + 1
          · subst hke; exact hc
          · exact (ih.mp h) k (by omega)
        · intro h
          exact ih.mpr (fun k hk => h k (by omega))

/-- What C5 asserts of `findOffsetForProgram`: relocatable programs get the first
free candidate scanning down from `32 − length` (or −1 when none is free), and
fixed-origin programs get exactly their origin, rejected when the program does not
fit in the 32 words from the origin or any required bit is occupied. -/
def C5Prop (used : Nat) (instructions : List Nat) (origin : Int) : Prop :=
  (origin < 0 →
    (∀ r : Nat, findOffsetForProgram used instructions origin = (r : Int) →
      r + instructions.length ≤ 32 ∧ maskRangeFree used r instructions.length ∧
        ∀ k : Nat, r < k → k + instructions.length ≤ 32 →
          ¬ maskRangeFree used k instructions.length) ∧
    (findOffsetForProgram used instructions origin = -1 ↔
      ∀ k : Nat, k + instructions.length ≤ 32 →
        ¬ maskRangeFree used k instructions.length)) ∧
  (0 ≤ origin → origin ≤ 127 →
    ((origin.toNat + instructions.length ≤ 32 ∧
        maskRangeFree used origin.toNat instructions.length →
      findOffsetForProgram used instructions origin = origin) ∧
    (¬ (origin.toNat + instructions.length ≤ 32 ∧
        maskRangeFree used origin.toNat instructions.length) →
      findOffsetForProgram used instructions origin = -1)))

/-- C5: `findOffsetForProgram` implements top-down first fit for relocatable programs
(scan from `32 − length` down to 0, first candidate whose range is free) and places a
fixed-origin program only at its origin, rejecting it when it does not fit or the
range is occupied. -/
theorem C5_find_offset_top_down_first_fit (used : Nat) (instructions : List Nat)
    (origin : Int) (hlen : instructions.length ≤ 32) :
    C5Prop used instructions origin := by
  have hlen32 : u32 instructions.length = instructions.length :=
    Nat.mod_eq_of_lt (by omega)
  have hstart : (32 + 4294967296 - instructions.length) % 4294967296 =
      32 - instructions.length := by omega
  constructor
  · intro hneg
    have hno : ¬ (0 ≤ origin) := by omega
    have hdef : findOffsetForProgram used instructions origin =
        findOffsetLoop used (u32Mask instructions.length) (32 - instructions.length) := by
      unfold findOffsetForProgram
      rw [if_neg hno, hlen32, hstart]
      have hsmall : (32 - instructions.length) % 256 = 32 - instructions.length := by omega
      have hlt : (32 - instructions.length) % 256 < 128 := by omega
      unfold i8ofU8
      rw [if_pos hlt, hsmall]
      rw [if_neg (by omega)]
      simp
    constructor
    · intro r hr
      rw [hdef] at hr
      obtain ⟨h1, h2, h3⟩ := findOffsetLoop_eq_nat used _ _ r hr
      refine ⟨by omega, (freeAt_iff_maskRangeFree used r instructions.length (by omega)).mp h2, ?_⟩
      intro k hk1 hk2 hfree
      exact (h3 k hk1 (by omega))
        ((freeAt_iff_maskRangeFree used k instructions.length hk2).mpr hfree)
    · rw [hdef, findOffsetLoop_eq_neg_iff]
      constructor
      · intro h k hk hfree
        exact (h k (by omega))
          ((freeAt_iff_maskRangeFree used k instructions.length hk).mpr hfree)
      · intro h k hk hfree
        exact (h k (by omega))
          ((freeAt_iff_maskRangeFree used k instructions.length (by omega)).mp hfree)
  · intro hpos hsmall
    have horig : u32 origin.toNat = origin.toNat := by
      apply Nat.mod_eq_of_lt; omega
    constructor
    · rintro ⟨hfit, hfree⟩
      unfold findOffsetForProgram
      rw [if_pos hpos, hlen32, hstart, horig]
      rw [if_neg (by omega)]
      have hz : used &&& (u32Mask instructions.length <<< origin.toNat) % 4294967296 = 0 :=
        (freeAt_iff_maskRangeFree used origin.toNat instructions.length hfit).mpr hfree
      rw [if_neg (not_not_intro hz)]
    · intro hnot
      unfold findOffsetForProgram
      rw [if_pos hpos, hlen32, hstart, horig]
      by_cases hfit : origin.toNat + instructions.length ≤ 32
      · have hnfree : ¬ maskRangeFree used origin.toNat instructions.length :=
          fun hf => hnot ⟨hfit, hf⟩
        rw [if_neg (by omega)]
        have hz : ¬ (used &&& (u32Mask instructions.length <<< origin.toNat) % 4294967296 = 0) :=
          fun h0 =>
            hnfree ((freeAt_iff_maskRangeFree used origin.toNat instructions.length hfit).mp h0)
        rw [if_pos hz]
      · rw [if_pos (by omega)]

/-- Witness for C5: with only bitmap bit 3 occupied, a relocatable two-word program
is placed by the top-down scan. -/
theorem C5_witness :
    ([0x0000, 0xa042] : List Nat).length ≤ 32 ∧ C5Prop 8 [0x0000, 0xa042] (-1) :=
  ⟨by decide, C5_find_offset_top_down_first_fit 8 [0x0000, 0xa042] (-1) (by decide)⟩

/-- Addresses outside the cleared range are untouched by the clear loop. -/
theorem clearSectionLoop_out :
    ∀ (n : Nat) (mem : Nat → Nat) (index trap a : Nat), (a < index ∨ index + n ≤ a) →
      clearSectionLoop mem index trap n a = mem a := by
  intro n
  induction n with
  | zero => intro mem index trap a _; rfl
  | succ m ih =>
      intro mem index trap a ha
      simp only [clearSectionLoop]
      rw [ih _ (index + 1) trap a (by omega)]
      rw [if_neg (by omega)]

/-- Every address inside the cleared range receives the trap word. -/
theorem clearSectionLoop_in_range :
    ∀ (n : Nat) (mem : Nat → Nat) (index trap a : Nat), index ≤ a → a < index + n →
      clearSectionLoop mem index trap n a = trap := by
  intro n
  induction n with
  | zero => intro mem index trap a h1 h2; omega
  | succ m ih =>
      intro mem index trap a h1 h2
      simp only [clearSectionLoop]
      by_cases ha : a = index
      · rw [clearSectionLoop_out m _ (index + 1) trap a (by omega)]
        rw [if_pos ha]
      · exact ih _ (index + 1) trap a (by omega) (by omega)

/-- C7 counterexample: the claim that every cleared word holds a SELF-targeting jump
is false: clearing words 0..1 of a fresh PIO stores the word 0 (an always-jump to
address 0, the section start) at word 1, whereas a self-targeting jump at word 1
would be the word 1. -/
theorem C7_counterexample_not_self_targeting :
    (ClearProgramSection freshPIO 0 2).map (fun t => t.instrMem 1) = some 0 ∧
    ((AssemblerV0.mk 0).Jmp 1 JmpAlways).Encode = 1 ∧ (0 : Nat) ≠ 1 :=
  ⟨by rfl, by decide, by decide⟩

/-- What the code actually guarantees (the amended C7): each word of the cleared
range is overwritten with the unconditional always-jump targeting `offset`, the
start of the cleared section; the bitmap bits of the range are cleared and all
other bitmap bits and memory words are unchanged. -/
def C7Prop (s : PIOState) (offset len : Nat) : Prop :=
  ∃ t : PIOState, ClearProgramSection s offset len = some t ∧
    (∀ w, offset ≤ w → w < offset + len →
      t.instrMem w = ((AssemblerV0.mk 0).Jmp offset JmpAlways).Encode) ∧
    (∀ w, ¬ (offset ≤ w ∧ w < offset + len) → t.instrMem w = s.instrMem w) ∧
    (∀ w, w < 32 →
      t.usedSpaceMask.testBit w =
        if offset ≤ w ∧ w < offset + len then false else s.usedSpaceMask.testBit w)

/-- C7 (amended): for every `offset` and `len` with `offset + len ≤ 32`,
`ClearProgramSection` succeeds, overwrites exactly the words of the range with the
always-jump to the section start `offset`, and clears exactly the corresponding
occupancy bits, leaving all other bits and words unchanged. -/
theorem C7_clear_section_traps_and_clears_bits (s : PIOState) (offset len : Nat)
    (hol : offset + len ≤ 32) : C7Prop s offset len := by
  have hoff : offset % 256 = offset := Nat.mod_eq_of_lt (by omega)
  have hlen : len % 256 = len := Nat.mod_eq_of_lt (by omega)
  have hsum : (offset + len) % 256 = offset + len := Nat.mod_eq_of_lt (by omega)
  have hguard : ¬ ((offset + len) % 256 > 32) := by omega
  have hend : (offset % 256 + len) % 256 = offset + len := by rw [hoff, hsum]
  refine ⟨_, by unfold ClearProgramSection; rw [if_neg hguard], ?_, ?_, ?_⟩
  · intro w hw1 hw2
    simp only [hoff, hsum, hlen]
    exact clearSectionLoop_in_range (offset + len - offset) _ offset _ w hw1 (by omega)
  · intro w hw
    simp only [hoff, hsum, hlen]
    exact clearSectionLoop_out (offset + len - offset) _ offset _ w (by omega)
  · intro w hw
    simp only [hoff, hsum, hlen]
    have hmask : u32Mask len = 2 ^ len - 1 := u32Mask_le32 len (by omega)
    have h32 : (4294967296 : Nat) = 2 ^ 32 := by norm_num
    rw [hmask, h32]
    simp only [Nat.testBit_land, Nat.testBit_xor, Nat.testBit_mod_two_pow,
      Nat.testBit_shiftLeft, Nat.testBit_two_pow_sub_one]
    have hall : Nat.testBit 4294967295 w = true := by
      have : (4294967295 : Nat) = 2 ^ 32 - 1 := by norm_num
      rw [this, Nat.testBit_two_pow_sub_one]
      simpa using hw
    rw [hall]
    by_cases hr : offset ≤ w ∧ w < offset + len
    · have h1 : decide (w < 32) = true := by simpa using hw
      have h2 : decide (offset ≤ w) = true := by simpa using hr.1
      have h3 : decide (w - offset < len) = true := by
        simp only [decide_eq_true_eq]; omega
      rw [if_pos hr]
      simp [h1, h2, h3]
    · rw [if_neg hr]
      by_cases hlo : offset ≤ w
      · have h3 : ¬ (w - offset < len) := by omega
        simp [hlo, h3]
      · simp [hlo]

/-- Witness for C7 (amended): clearing two words starting at offset 1 on a PIO whose
low four bitmap bits are set. -/
theorem C7_witness : 1 + 2 ≤ 32 ∧ C7Prop ⟨15, fun _ => 7⟩ 1 2 :=
  ⟨by decide, C7_clear_section_traps_and_clears_bits ⟨15, fun _ => 7⟩ 1 2 (by decide)⟩

/-- The two range errors of `splitClkdiv`. -/
inductive ClkDivErr where
  | tooLarge
  | tooSmall
deriving DecidableEq

/-- Go `splitClkdiv`: reject a raw fixed-point divisor above `256*65535` or below
256, otherwise split it into the 16-bit whole part and 8-bit fraction (floor). -/
def splitClkdiv (clkdiv : Nat) : Except ClkDivErr (Nat × Nat) :=
  if clkdiv > 256 * 65535 then .error .tooLarge
  else if clkdiv < 256 then .error .tooSmall
  else .ok ((clkdiv / 256) % 65536, clkdiv % 256)

/-- Go `ClkDivFromFrequency`: `raw = 256*cpuFreq/freq` in 64-bit arithmetic; `none`
models the Go divide-by-zero panic when `freq = 0`. -/
def ClkDivFromFrequency (freq cpuFreq : Nat) : Option (Except ClkDivErr (Nat × Nat)) :=
  if freq = 0 then none else some (splitClkdiv (256 * cpuFreq / freq))

/-- What C6 asserts of `ClkDivFromFrequency`: an error exactly when the raw divisor
is out of range, otherwise the floor split; and the two boundary instances. -/
def C6Prop (freq cpuFreq : Nat) : Prop :=
  ((∃ e, ClkDivFromFrequency freq cpuFreq = some (.error e)) ↔
    (256 * cpuFreq / freq < 256 ∨ 256 * cpuFreq / freq > 256 * 65535)) ∧
  (256 ≤ 256 * cpuFreq / freq → 256 * cpuFreq / freq ≤ 256 * 65535 →
    ClkDivFromFrequency freq cpuFreq =
      some (.ok (256 * cpuFreq / freq / 256, 256 * cpuFreq / freq % 256))) ∧
  (freq = cpuFreq → ClkDivFromFrequency freq cpuFreq = some (.ok (1, 0))) ∧
  (freq = cpuFreq + 1 → ∃ e, ClkDivFromFrequency freq cpuFreq = some (.error e))

/-- C6: with `raw = 256*systemFreq/targetFreq` computed in 64-bit arithmetic,
`ClkDivFromFrequency` errors exactly when `raw < 256` or `raw > 256*65535`, and
otherwise returns the floor split `whole = raw/256`, `frac = raw%256`; in
particular requesting the system frequency itself gives whole 1, frac 0, and
requesting `systemFreq+1` gives a range error. -/
theorem C6_clkdiv_from_frequency (freq cpuFreq : Nat) (hf : 0 < freq)
    (hf32 : freq < 4294967296) (hc32 : cpuFreq < 4294967296) :
    C6Prop freq cpuFreq := by
  have hne : ¬ (freq = 0) := by omega
  refine ⟨?_, ?_, ?_, ?_⟩
  · unfold ClkDivFromFrequency splitClkdiv
    rw [if_neg hne]
    by_cases hbig : 256 * cpuFreq / freq > 256 * 65535
    · rw [if_pos hbig]
      constructor
      · intro _; right; exact hbig
      · intro _; exact ⟨.tooLarge, rfl⟩
    · rw [if_neg hbig]
      by_cases hsmall : 256 * cpuFreq / freq < 256
      · rw [if_pos hsmall]
        constructor
        · intro _; left; exact hsmall
        · intro _; exact ⟨.tooSmall, rfl⟩
      · rw [if_neg hsmall]
        constructor
        · rintro ⟨e, he⟩; simp at he
        · intro hor; omega
  · intro h1 h2
    unfold ClkDivFromFrequency splitClkdiv
    rw [if_neg hne, if_neg (by omega), if_neg (by omega)]
    have hwhole : 256 * cpuFreq / freq / 256 % 65536 = 256 * cpuFreq / freq / 256 := by
      apply Nat.mod_eq_of_lt
      have : 256 * cpuFreq / freq / 256 ≤ 256 * 65535 / 256 := Nat.div_le_div_right h2
      omega
    rw [hwhole]
  · intro heq
    subst heq
    have hraw : 256 * freq / freq = 256 := Nat.mul_div_cancel 256 hf
    unfold ClkDivFromFrequency splitClkdiv
    rw [if_neg hne, hraw]
    norm_num
  · intro heq
    subst heq
    have hraw : 256 * cpuFreq / (cpuFreq + 1) < 256 := by
      rw [Nat.div_lt_iff_lt_mul (by omega)]
      omega
    unfold ClkDivFromFrequency splitClkdiv
    rw [if_neg hne, if_neg (by omega), if_pos hraw]
    exact ⟨.tooSmall, rfl⟩

/-- Witness for C6 at target frequency 2 and system frequency 2. -/
theorem C6_witness : (0 : Nat) < 2 ∧ (2 : Nat) < 4294967296 ∧ C6Prop 2 2 :=
  ⟨by decide, by decide, C6_clkdiv_from_frequency 2 2 (by decide) (by decide) (by decide)⟩

/-- `StateMachineConfig` (config.go): the four 32-bit register images. -/
structure StateMachineConfig where
  ClkDiv : Nat
  ExecCtrl : Nat
  ShiftCtrl : Nat
  PinCtrl : Nat
deriving DecidableEq

/-- Go `clkDiv` (config.go): `frac<<FRAC_Pos | whole<<INT_Pos` with FRAC at bit 8 and
INT at bit 16. -/
def clkDiv (whole frac : Nat) : Nat :=
  ((frac % 256) <<< 8) ||| ((whole % 65536) <<< 16)

/-- Go `StateMachineConfig.SetClkDivIntFrac`. -/
def StateMachineConfig.SetClkDivIntFrac (cfg : StateMachineConfig) (whole frac : Nat) :
    StateMachineConfig :=
  { cfg with ClkDiv := clkDiv whole frac }

/-- Go `StateMachineConfig.SetWrap`: clear-then-OR of the WRAP_TOP (bits 16:12) and
WRAP_BOTTOM (bits 11:7) fields of the execution-control register. -/
def StateMachineConfig.SetWrap (cfg : StateMachineConfig) (wrapTarget wrap : Nat) :
    StateMachineConfig :=
  { cfg with ExecCtrl :=
      (cfg.ExecCtrl &&& (4294967295 ^^^ (0x1F000 ||| 0xF80))) |||
        ((wrapTarget % 256) <<< 7) ||| ((wrap % 256) <<< 12) }

/-- Go `StateMachineConfig.SetInShift`: clear-then-OR of IN_SHIFTDIR (bit 18),
AUTOPUSH (bit 16) and PUSH_THRESH (bits 24:20). -/
def StateMachineConfig.SetInShift (cfg : StateMachineConfig) (shiftRight autoPush : Bool)
    (pushThreshold : Nat) : StateMachineConfig :=
  { cfg with ShiftCtrl :=
      (cfg.ShiftCtrl &&& (4294967295 ^^^ (0x40000 ||| 0x10000 ||| 0x1F00000))) |||
        (boolToBit shiftRight <<< 18) ||| (boolToBit autoPush <<< 16) |||
        (((pushThreshold % 65536) &&& 0x1F) <<< 20) }

/-- Go `StateMachineConfig.SetOutShift`: clear-then-OR of OUT_SHIFTDIR (bit 19),
AUTOPULL (bit 17) and PULL_THRESH (bits 29:25). -/
def StateMachineConfig.SetOutShift (cfg : StateMachineConfig) (shiftRight autoPull : Bool)
    (pushThreshold : Nat) : StateMachineConfig :=
  { cfg with ShiftCtrl :=
      (cfg.ShiftCtrl &&& (4294967295 ^^^ (0x80000 ||| 0x20000 ||| 0x3E000000))) |||
        (boolToBit shiftRight <<< 19) ||| (boolToBit autoPull <<< 17) |||
        (((pushThreshold % 65536) &&& 0x1F) <<< 25) }

/-- Go `StateMachineConfig.SetSidesetParams`: panics (`none`) for a bit count above 5;
otherwise clear-then-OR of SIDESET_COUNT (pin-control bits 31:29) and of SIDE_EN
(bit 30) and SIDE_PINDIR (bit 29) of the execution-control register. -/
def StateMachineConfig.SetSidesetParams (cfg : StateMachineConfig) (bitCount : Nat)
    (optional pindirs : Bool) : Option StateMachineConfig :=
  if bitCount > 5 then none
  else some { cfg with
    PinCtrl := (cfg.PinCtrl &&& (4294967295 ^^^ 0xE0000000)) ||| ((bitCount % 256) <<< 29),
    ExecCtrl :=
      (cfg.ExecCtrl &&& (4294967295 ^^^ (0x40000000 ||| 0x20000000))) |||
        (boolToBit optional <<< 30) ||| (boolToBit pindirs <<< 29) }

/-- Go `DefaultStateMachineConfig`: divisor 1.0, wrap over the whole memory,
right-shifting non-auto shift configuration for both directions. -/
def DefaultStateMachineConfig : StateMachineConfig :=
  ((((StateMachineConfig.mk 0 0 0 0).SetClkDivIntFrac 1 0).SetWrap 0 31).SetInShift
    true false 32).SetOutShift true false 32

/-- Clear-then-OR updates to disjoint bit ranges commute: re-applying the first
update after the second changes nothing, provided the OR bits of the second
update survive the clearing mask of the first. -/
theorem clear_then_or_comm (e T s Wc Sc : Nat) (hs : s &&& Wc = s) :
    ((((e &&& Wc ||| T) &&& Sc ||| s) &&& Wc) ||| T) = ((e &&& Sc ||| s) &&& Wc) ||| T := by
  apply Nat.eq_of_testBit_eq
  intro i
  have hsi := congrArg (fun n => Nat.testBit n i) hs
  simp only [Nat.testBit_land] at hsi
  simp only [Nat.testBit_land, Nat.testBit_lor]
  cases e.testBit i <;> cases T.testBit i <;> cases hW : Wc.testBit i <;>
    cases Sc.testBit i <;> cases hss : s.testBit i <;> simp_all

/-- C8: `SetWrap` and `SetSidesetParams` target disjoint bit ranges of the
execution-control register, so applying `SetWrap`, then `SetSidesetParams`, then
`SetWrap` again with the same arguments leaves the execution-control register
identical to applying `SetSidesetParams` then `SetWrap` once. -/
theorem C8_set_wrap_sideset_commute (cfg : StateMachineConfig) (t w b : Nat) (o p : Bool) :
    (((cfg.SetWrap t w).SetSidesetParams b o p).map (fun c => (c.SetWrap t w).ExecCtrl)) =
      ((cfg.SetSidesetParams b o p).map (fun c => (c.SetWrap t w).ExecCtrl)) := by
  unfold StateMachineConfig.SetSidesetParams
  by_cases hb : b > 5
  · rw [if_pos hb, if_pos hb]
  · rw [if_neg hb, if_neg hb]
    simp only [Option.map_some']
    unfold StateMachineConfig.SetWrap
    congr 1
    dsimp only
    have hcore := clear_then_or_comm cfg.ExecCtrl ((t % 256) <<< 7 ||| (w % 256) <<< 12)
      (boolToBit o <<< 30 ||| boolToBit p <<< 29) (4294967295 ^^^ (0x1F000 ||| 0xF80))
      (4294967295 ^^^ (0x40000000 ||| 0x20000000))
      (by cases o <;> cases p <;> decide)
    simp only [Nat.lor_assoc] at hcore ⊢
    exact hcore

/-- A 13-bit value has no bits in the instruction-kind field. -/
theorem and_top3_eq_zero_of_lt (x : Nat) (hx : x < 8192) : x &&& 57344 = 0 := by
  apply Nat.eq_of_testBit_eq
  intro i
  simp only [Nat.testBit_land, Nat.zero_testBit]
  by_cases h13 : i ≥ 13
  · have hlt : x < 2 ^ i := by
      calc x < 8192 := hx
        _ = 2 ^ 13 := by norm_num
        _ ≤ 2 ^ i := Nat.pow_le_pow_right (by omega) h13
    simp [Nat.testBit_lt_two_pow hlt]
  · have hz : Nat.testBit 57344 i = false := by interval_cases i <;> decide
    simp [hz]

/-- Masking with 31 is reduction modulo 32. -/
theorem and31_eq_mod (n : Nat) : n &&& 31 = n % 32 := by
  have h5 := Nat.and_pow_two_sub_one_eq_mod n 5
  norm_num at h5
  exact h5

/-- An always-jump encodes to just its masked target address. -/
theorem EncodeJmp_always (pc : Nat) : EncodeJmp pc JmpAlways = pc &&& 31 := by
  simp [EncodeJmp, encodeInstrAndArgs, _INSTR_BITS_JMP, JmpAlways]

/-- One recorded hardware side effect of the state-machine lifecycle layer
(statemachine.go): each constructor names one hardware operation `Init` performs. -/
inductive HWEffect where
  | setEnabled (enabled : Bool)
  | setConfig (cfg : StateMachineConfig)
  | clearFIFOs
  | fdebugClear (mask : Nat)
  | restart
  | clkDivRestart
  | exec (instr : Nat)
deriving DecidableEq

/-- Go `StateMachine.SetEnabled` as its recorded effect. -/
def smSetEnabled (enabled : Bool) : List HWEffect := [.setEnabled enabled]

/-- Go `StateMachine.SetConfig` as its recorded effect (the four register images
written in one configuration application). -/
def smSetConfig (cfg : StateMachineConfig) : List HWEffect := [.setConfig cfg]

/-- Go `StateMachine.ClearFIFOs` as its recorded effect. -/
def smClearFIFOs : List HWEffect := [.clearFIFOs]

/-- Go `StateMachine.Restart` as its recorded effect. -/
def smRestart : List HWEffect := [.restart]

/-- Go `StateMachine.ClkDivRestart` as its recorded effect. -/
def smClkDivRestart : List HWEffect := [.clkDivRestart]

/-- Go `StateMachine.Exec` as its recorded effect. -/
def smExec (instr : Nat) : List HWEffect := [.exec instr]

/-- The FDEBUG write-1-to-clear mask for one state machine: TXOVER (bit 16),
RXUNDER (bit 8), TXSTALL (bit 24), RXSTALL (bit 0). -/
def fdebugMask : Nat := (1 <<< 16) ||| (1 <<< 8) ||| (1 <<< 24) ||| (1 <<< 0)

/-- Go `StateMachine.Init` as its recorded effect trace: `none` models the panic on a
state-machine index above 3; otherwise the source performs, in program order:
disable, apply the configuration (the default when the zero value was passed),
clear FIFOs, clear the sticky FIFO debug flags, restart, restart the clock divider,
and execute an unconditional jump to the initial program counter. -/
def StateMachineInit (index initialPC : Nat) (cfg : StateMachineConfig) :
    Option (List HWEffect) :=
  if index > 3 then none
  else some (
    smSetEnabled false ++
    (if cfg = StateMachineConfig.mk 0 0 0 0 then smSetConfig DefaultStateMachineConfig
      else smSetConfig cfg) ++
    smClearFIFOs ++
    [HWEffect.fdebugClear ((fdebugMask <<< index) % 4294967296)] ++
    smRestart ++ smClkDivRestart ++
    smExec (EncodeJmp initialPC JmpAlways))

/-- C3: every non-panicking `Init` call performs exactly the seven hardware side
effects in the claimed order: disable, configure (substituting the default
configuration for the all-zero value), clear FIFOs, clear the sticky FIFO debug
flags of the state machine, restart, clock-divider restart, and an unconditional
jump to `initialPC` (kind bits jump, condition field 0, address operand
`initialPC mod 32`). -/
theorem C3_init_effect_order (index initialPC : Nat) (cfg : StateMachineConfig)
    (h : index ≤ 3) :
    StateMachineInit index initialPC cfg = some
      [.setEnabled false,
       .setConfig (if cfg = StateMachineConfig.mk 0 0 0 0 then DefaultStateMachineConfig else cfg),
       .clearFIFOs,
       .fdebugClear ((fdebugMask <<< index) % 4294967296),
       .restart,
       .clkDivRestart,
       .exec (EncodeJmp initialPC JmpAlways)] ∧
    majorInstrBits (EncodeJmp initialPC JmpAlways) = _INSTR_BITS_JMP ∧
    (EncodeJmp initialPC JmpAlways >>> 5) &&& 7 = 0 ∧
    EncodeJmp initialPC JmpAlways &&& 31 = initialPC % 32 := by
  refine ⟨?_, ?_, ?_, ?_⟩
  · unfold StateMachineInit
    rw [if_neg (by omega)]
    by_cases hz : cfg = StateMachineConfig.mk 0 0 0 0
    · rw [if_pos hz, if_pos hz]
      rfl
    · rw [if_neg hz, if_neg hz]
      rfl
  · rw [EncodeJmp_always]
    unfold majorInstrBits _INSTR_BITS_Msk _INSTR_BITS_JMP
    exact and_top3_eq_zero_of_lt _ (by
      have := Nat.and_le_right (n := initialPC) (m := 31)
      omega)
  · rw [EncodeJmp_always, and31_eq_mod]
    rw [Nat.shiftRight_eq_div_pow]
    norm_num
  · rw [EncodeJmp_always, and31_eq_mod, and31_eq_mod, Nat.mod_mod_of_dvd _ (by norm_num)]

/-- Witness for C3: state machine 0, initial program counter 5, zero (placeholder)
configuration. -/
theorem C3_witness :
    (0 : Nat) ≤ 3 ∧
    StateMachineInit 0 5 (StateMachineConfig.mk 0 0 0 0) = some
      [.setEnabled false,
       .setConfig (if (StateMachineConfig.mk 0 0 0 0) = StateMachineConfig.mk 0 0 0 0
          then DefaultStateMachineConfig else StateMachineConfig.mk 0 0 0 0),
       .clearFIFOs,
       .fdebugClear ((fdebugMask <<< 0) % 4294967296),
       .restart,
       .clkDivRestart,
       .exec (EncodeJmp 5 JmpAlways)] :=
  ⟨by decide, (C3_init_effect_order 0 5 (StateMachineConfig.mk 0 0 0 0) (by decide)).1⟩
